import Mathlib

/-!
Verification of the hanabi-live server core against its specification.

The development shallowly embeds the parts of the code the claims are about:

* `src/server/src/serialize_tables.go` — the persistence layer
  (`serializeTables` / `restoreTables`);
* `src/unnamed/part_000` — the return-to-lobby command handler (`step1`);
* `src/public/js/src/game/ui/notes.js` — the note-editing commit path
  (`openEditTooltip` keydown handler and `stripHTMLtags`).

Go machine integers that matter here are durations (`time.Duration`,
nanoseconds) modelled as `Int`; JSON values are modelled by `JValue` and a
decoded JSON object by an association list `JMap`.
-/

namespace Hanabi

/-! ## JSON model

`json.Marshal` turns a typed action into a JSON object; `json.Unmarshal` into
`[]interface{}` yields each action as a generic `map[string]interface{}`.
We model a JSON scalar by `JValue` and a decoded object by `JMap`. -/

inductive JValue where
  | str (s : String)
  | num (n : Int)
deriving DecidableEq, Repr

abbrev JMap := List (String × JValue)

/-- Lookup of a key in a decoded JSON object (`m[k]` in Go). -/
def lookupKey : JMap → String → Option JValue
  | [], _ => none
  | (k, v) :: rest, key => if k = key then some v else lookupKey rest key

/-! ## Actions

Modelled from the spec: the `Action` structs (`ActionDraw` and the other
discriminated kinds) are not among the provided source files; the spec
describes an action as "a discriminated record describing one state
transition (who, what kind, target card/suit/rank as applicable, resulting
turn)" with kinds draw, clue, play, discard, turn, game-over, each carrying
an explicit `type` string discriminator in its encoded form. -/

inductive ActionKind where
  | draw
  | clue
  | play
  | discard
  | turn
  | gameOver
deriving DecidableEq, Repr

/-- The `type` discriminator string each action kind is encoded with. -/
def kindString : ActionKind → String
  | .draw => "draw"
  | .clue => "clue"
  | .play => "play"
  | .discard => "discard"
  | .turn => "turn"
  | .gameOver => "gameOver"

/-- Modelled from the spec: one typed action record ("who, what kind, target
card/suit/rank as applicable"); `ActionDraw` is the instance with
`kind = .draw`, matching the struct `restoreTables` decodes into. -/
structure TypedAction where
  kind : ActionKind
  who : Int
  suit : Int
  rank : Int
  order : Int
deriving DecidableEq, Repr

/-- JSON encoding of a typed action: an object with its `type` discriminator
and its numeric fields. -/
def encodeAction (a : TypedAction) : JMap :=
  [("type", .str (kindString a.kind)),
   ("who", .num a.who),
   ("suit", .num a.suit),
   ("rank", .num a.rank),
   ("order", .num a.order)]

/-- One entry of `Game.Actions` (`[]interface{}` in Go): either a typed
action struct or a generic decoded `map[string]interface{}`. -/
inductive Action where
  | typed (a : TypedAction)
  | generic (m : JMap)
deriving DecidableEq, Repr

/-- What `json.Marshal` writes for one action-log entry: a typed struct is
encoded field by field, a generic map is written as-is. -/
def encodeActionVal : Action → JMap
  | .typed a => encodeAction a
  | .generic m => m

/-! ## Tables and games (the serialized data model)

Fields are the ones `serialize_tables.go` touches; back-references dropped by
`json:"-"` (`Game.Options`) are modelled as an `Option` that serialization
sets to `none` and recovery re-establishes. -/

/-- A lobby player record (`t.Players` entries): `restoreTables` clears its
`Present` flag. -/
structure Player where
  userID : Nat
  present : Bool
deriving DecidableEq, Repr

/-- A game player record (`g.Players` entries): carries the remaining time
budget in nanoseconds (`time.Duration`). -/
structure GamePlayer where
  time : Int
deriving DecidableEq, Repr

/-- Table options; `Timed` is the field `restoreTables` branches on. -/
structure Options where
  timed : Bool
deriving DecidableEq, Repr

/-- The embedded `Game`: the fields the persistence claims compare, plus the
`Options` back-reference that `json:"-"` drops from the encoded form. -/
structure Game where
  players : List GamePlayer
  /-- `Game.Stacks` (the name `stacks` is reserved in this toolchain). -/
  playStacks : List Nat
  discardPile : List Nat
  clueTokens : Nat
  actions : List Action
  turn : Nat
  pauseCount : Nat
  activePlayerIndex : Nat
  options : Option Options
deriving DecidableEq, Repr

/-- A `Table`. -/
structure Table where
  id : Nat
  running : Bool
  replay : Bool
  players : List Player
  options : Options
  game : Game
deriving DecidableEq, Repr

/-- One nanosecond count for a second (`time.Second`). -/
def second : Int := 1000000000

/-- `json.Marshal` followed by `json.Unmarshal` of a table, as one step: the
typed action-log entries come back as generic decoded maps, and the
`json:"-"` back-reference `Game.Options` is dropped. -/
def marshalTable (t : Table) : Table :=
  { t with game := { t.game with
      actions := t.game.actions.map (fun a => Action.generic (encodeActionVal a)),
      options := none } }

/-- The filename a table is written to: `strconv.FormatUint(t.ID, 10) + ".json"`. -/
def tableFileName (id : Nat) : String :=
  toString id ++ ".json"

/-- Whether `serializeTables` serializes a table: only ongoing games
(`t.Running && !t.Replay`). -/
def qualifies (t : Table) : Bool :=
  t.running && !t.replay

/-- The loop body of `serializeTables` over the registry, with failure
oracles for `json.Marshal` and `ioutil.WriteFile` keyed by table ID.
Returns the success flag together with the records written so far, in
order; a marshal or write failure returns `false` immediately, leaving the
remaining tables unwritten. -/
def serializeTablesAux (marshalOk writeOk : Nat → Bool) :
    List Table → List (String × Table) → Bool × List (String × Table)
  | [], acc => (true, acc.reverse)
  | t :: rest, acc =>
    if qualifies t = false then
      serializeTablesAux marshalOk writeOk rest acc
    else if marshalOk t.id = false then
      (false, acc.reverse)
    else if writeOk t.id = false then
      (false, acc.reverse)
    else
      serializeTablesAux marshalOk writeOk rest
        ((tableFileName t.id, marshalTable t) :: acc)

/-- `serializeTables`: serialize every ongoing, non-replay table to one
record named by its ID. -/
def serializeTables (marshalOk writeOk : Nat → Bool) (ts : List Table) :
    Bool × List (String × Table) :=
  serializeTablesAux marshalOk writeOk ts []

/-! ## Recovery (`restoreTables`) -/

/-- `mapstructure.Decode` of a generic map into an `ActionDraw`: a missing
key leaves the zero value, a value of the wrong type is a decode error
(fatal in `restoreTables`). -/
def decodeIntField (m : JMap) (k : String) : Option Int :=
  match lookupKey m k with
  | none => some 0
  | some (.num n) => some n
  | some (.str _) => none

/-- Decoding a generic map into the `ActionDraw` struct. -/
def decodeDraw (m : JMap) : Option TypedAction :=
  match decodeIntField m "who", decodeIntField m "suit",
      decodeIntField m "rank", decodeIntField m "order" with
  | some w, some s, some r, some o => some ⟨.draw, w, s, r, o⟩
  | _, _, _, _ => none

/-- The per-entry body of the action re-typing loop in `restoreTables`:
the entry must be a generic map (the type assertion
`a.(map[string]interface{})` is fatal otherwise); a map whose `type` is
`"draw"` is re-decoded into an `ActionDraw`; every other entry is kept
as the generic map ("we don't have to bother converting any other
actions"). -/
def retypeOne (a : Action) : Option Action :=
  match a with
  | .typed _ => none
  | .generic m =>
    if lookupKey m "type" = some (.str "draw") then
      (decodeDraw m).map Action.typed
    else
      some (.generic m)

/-- The action re-typing loop over the whole log. -/
def retypeActions : List Action → Option (List Action)
  | [] => some []
  | a :: rest =>
    match retypeOne a, retypeActions rest with
    | some a', some rest' => some (a' :: rest')
    | _, _ => none

/-- Bump one list element (`g.Players[i].Time += d`); out of range leaves the
list unchanged. -/
def addTimeAt (d : Int) : List GamePlayer → Nat → List GamePlayer
  | [], _ => []
  | p :: rest, 0 => { p with time := p.time + d } :: rest
  | p :: rest, n + 1 => p :: addTimeAt d rest n

/-- The per-record body of `restoreTables` after `json.Unmarshal`: re-link
the dropped `Options` back-reference, re-type the action log (fatal on
failure), clear every lobby player's `Present` flag, and for timed tables
add the 20-second grace to the active player's time and launch
`CheckTimer` for that player. Returns the repaired table together with
the player index a turn-timer watcher was armed for (if any). -/
def restoreOne (t : Table) : Option (Table × Option Nat) :=
  match retypeActions t.game.actions with
  | none => none
  | some acts =>
    let g1 := { t.game with options := some t.options, actions := acts }
    let players' := t.players.map (fun p => { p with present := false })
    if t.options.timed then
      let g2 := { g1 with
        players := addTimeAt (20 * second) g1.players g1.activePlayerIndex }
      some ({ t with game := g2, players := players' }, some g1.activePlayerIndex)
    else
      some ({ t with game := g1, players := players' }, none)

/-- What a stored record file looks like to the scanner: readable and
decodable into a table, readable but undecodable, or unreadable. -/
inductive FileContent where
  | unreadable
  | undecodable
  | table (t : Table)
deriving DecidableEq, Repr

/-- One directory entry in the tables directory. -/
structure DirFile where
  name : String
  content : FileContent
deriving DecidableEq, Repr

/-- One table recovered by `restoreTables`: registry key, repaired table,
and the player index its turn-timer watcher was armed for (if any). -/
structure RestoredEntry where
  id : Nat
  table : Table
  timerPlayer : Option Nat
deriving DecidableEq, Repr

/-- The file loop of `restoreTables`: `.gitignore` is skipped; a read
failure, a `json.Unmarshal` failure, or a re-typing failure is fatal
(`log.Fatal` / `logger.Fatal`) and modelled as an error. -/
def restoreFiles : List DirFile → Except String (List RestoredEntry)
  | [] => .ok []
  | f :: fs =>
    if f.name = ".gitignore" then
      restoreFiles fs
    else
      match f.content with
      | .unreadable => .error ("Failed to read " ++ f.name)
      | .undecodable => .error ("Failed to unmarshal " ++ f.name)
      | .table t =>
        match restoreOne t with
        | none => .error ("Failed to convert an action of " ++ f.name)
        | some rt => (restoreFiles fs).map (fun rest => ⟨rt.1.id, rt.1, rt.2⟩ :: rest)

/-- `restoreTables`: a failed `ioutil.ReadDir` of the tables directory is
fatal; otherwise each file is processed in order. -/
def restoreTables (dir : Option (List DirFile)) : Except String (List RestoredEntry) :=
  match dir with
  | none => .error "Failed to get the files in the tables directory"
  | some fs => restoreFiles fs

/-! ## Return to lobby (`src/unnamed/part_000`, `step1`)

The handler for the "Lobby" button pressed in the middle of a game. The
game object fields it reads or writes are `spectators` (a mapping from
user ID to a spectator record, here its key set), `num_spec`, `players`
(with their `present` flags) and `running`; the remaining game fields
(hands, stacks, turn, clue tokens — modelled from the spec's data model,
the node game object itself is not among the source files) are carried
along to express frame conditions. -/

/-- A player entry of the node game object (`game.players`). -/
structure JsPlayer where
  userID : Nat
  present : Bool
deriving DecidableEq, Repr

/-- The node game object (`globals.currentGames[gameID]`). -/
structure JsGame where
  /-- Key set of the `game.spectators` mapping (user IDs). -/
  spectators : List Nat
  num_spec : Int
  players : List JsPlayer
  running : Bool
  /-- Modelled from the spec: turn index (not touched by `step1`). -/
  turn : Nat
  /-- Modelled from the spec: clue tokens (not touched by `step1`). -/
  clueTokens : Nat
  /-- Modelled from the spec: played stacks (not touched by `step1`). -/
  playStacks : List Nat
  /-- Modelled from the spec: hands (not touched by `step1`). -/
  hands : List (List Nat)
deriving DecidableEq, Repr

/-- The session socket: the fields `step1` reads or writes. -/
structure Socket where
  userID : Nat
  username : String
  status : String
  /-- `socket.atTable.id`. -/
  atTableID : Nat
  /-- `socket.atTable.spectating`: the session's recorded role. -/
  spectating : Bool
deriving DecidableEq, Repr

/-- The outbound notifications `step1` can produce, in emission order. -/
inductive Notif where
  /-- `notify.allUserChange`: a user's global status changed. -/
  | allUserChange
  /-- `notify.gameMemberChange`: table membership changed. -/
  | gameMemberChange
  /-- `notify.gameNumSpec`: spectator count changed. -/
  | gameNumSpec
  /-- `notify.gameConnected`: player presence/connection changed. -/
  | gameConnected
  /-- `notify.playerTable`: fresh table message to the departing player. -/
  | playerTable
deriving DecidableEq, Repr

/-- `globals.currentGames[id]` lookup. -/
def lookupGame : List (Nat × JsGame) → Nat → Option JsGame
  | [], _ => none
  | (k, v) :: rest, id => if k = id then some v else lookupGame rest id

/-- Assignment `globals.currentGames[id] = g` (replacing the entry). -/
def updateGame : List (Nat × JsGame) → Nat → JsGame → List (Nat × JsGame)
  | [], _, _ => []
  | (k, v) :: rest, id, g =>
    if k = id then (k, g) :: updateGame rest id g
    else (k, v) :: updateGame rest id g

/-- `delete game.spectators[socket.userID]`. -/
def deleteSpectator (specs : List Nat) (uid : Nat) : List Nat :=
  specs.filter (fun u => u ≠ uid)

/-- The `for (let player of game.players)` loop: flip `present` of the first
player whose `userID` matches, then `break`. -/
def setPresentFalse : List JsPlayer → Nat → List JsPlayer
  | [], _ => []
  | p :: rest, uid =>
    if p.userID = uid then { p with present := false } :: rest
    else p :: setPresentFalse rest uid

/-- The result of one `step1` call: the updated games map, the updated
socket, and the notifications emitted, in order. -/
structure Step1Result where
  games : List (Nat × JsGame)
  socket : Socket
  notifs : List Notif
deriving DecidableEq, Repr

/-- `step1`: the return-to-lobby handler. The session's status is set to
`"Lobby"` and `allUserChange` fires before the table-existence check; a
spectator whose ID is missing from the spectator mapping is a logged
error that aborts the action; a spectator is deleted from the mapping
with `num_spec` decremented; a player only has the `present` flag of the
first matching entry cleared, followed by `gameConnected` (running) or
`gameMemberChange` (not running) and a fresh table message. -/
def step1 (games : List (Nat × JsGame)) (socket : Socket) : Step1Result :=
  match lookupGame games socket.atTableID with
  | none => ⟨games, { socket with status := "Lobby" }, [.allUserChange]⟩
  | some game =>
    if socket.spectating then
      if socket.userID ∈ game.spectators then
        ⟨updateGame games socket.atTableID
            { game with
              spectators := deleteSpectator game.spectators socket.userID,
              num_spec := game.num_spec - 1 },
          { socket with status := "Lobby" },
          [.allUserChange, .gameMemberChange, .gameNumSpec]⟩
      else
        ⟨games, { socket with status := "Lobby" }, [.allUserChange]⟩
    else
      ⟨updateGame games socket.atTableID
          { game with players := setPresentFalse game.players socket.userID },
        { socket with status := "Lobby" },
        [.allUserChange,
         if game.running then Notif.gameConnected else Notif.gameMemberChange,
         .playerTable]⟩

/-! ## Note editing (`notes.js`)

The keydown handler installed by `openEditTooltip` (only installed when not
in a replay), together with `set` and `stripHTMLtags`. Card-rendering side
effects (`checkSpecialNote`, tooltip updates) are visual and out of the
specified core. -/

/-- One entry of `globals.allNotes[order]`. -/
structure NoteObject where
  name : String
  note : String
deriving DecidableEq, Repr

/-- The note-related client globals the commit path touches. -/
structure NotesGlobals where
  ourNotes : List String
  allNotes : List (List NoteObject)
  spectating : Bool
  replay : Bool
  username : String
  lastNote : String
  /-- The `note` commands sent to the server, oldest first: card order and
  note text. -/
  sent : List (Nat × String)
  /-- `globals.editingNote`. -/
  editingNote : Option Nat
deriving DecidableEq, Repr

/-- Character scan behind `stripHTMLtags`. Modelled from the spec: the
browser `DOMParser` text-content extraction ("content is sanitized before
acceptance (no embedded markup)") is not among the source files; it is
modelled as removal of every `<`..`>` tag, keeping the text between
tags. -/
def stripChars : List Char → Bool → List Char
  | [], _ => []
  | c :: rest, true => if c = '>' then stripChars rest false else stripChars rest true
  | c :: rest, false => if c = '<' then stripChars rest true else c :: stripChars rest false

/-- `stripHTMLtags`: parse the input as HTML and return the text content. -/
def stripHTMLtags (input : String) : String :=
  ⟨stripChars input.data false⟩

/-- `notes.get(order, our)` in the handler (always called with
`our = true`): our own note for the card. -/
def getNote (g : NotesGlobals) (order : Nat) : String :=
  (g.ourNotes.get? order).getD ""

/-- Replace index `i` of a list, leaving the list unchanged out of range. -/
def setAt {α : Type} (l : List α) (i : Nat) (x : α) : List α :=
  l.set i x

/-- The spectator mirror in `notes.set`: when spectating, replace our own
entry of `allNotes` with the new note. -/
def noteMirror (username note : String) (spectating : Bool)
    (allNotes : List (List NoteObject)) : List (List NoteObject) :=
  if spectating then
    allNotes.map (fun l =>
      l.map (fun no => if no.name = username then { no with note := note } else no))
  else allNotes

/-- `notes.set(order, note)`: store the note locally, mirror it into
`allNotes` when spectating, remember it as `lastNote`, and send it to the
server when not in a replay and the note changed. -/
def noteSet (order : Nat) (note : String) (g : NotesGlobals) : NotesGlobals :=
  { g with
    ourNotes := setAt g.ourNotes order note,
    allNotes := noteMirror g.username note g.spectating g.allNotes,
    lastNote := note,
    sent :=
      if g.replay = false ∧ note ≠ getNote g order then
        g.sent ++ [(order, note)]
      else g.sent }

/-- The keys the handler distinguishes. -/
inductive Key where
  | enter
  | escape
  | other
deriving DecidableEq, Repr

/-- The keydown handler of the note edit input: any key other than Enter or
Escape returns immediately; both Enter and Escape clear
`globals.editingNote`; Escape keeps the existing note (no `set` call);
Enter reads the input value, strips HTML tags from it, and commits it via
`set`. -/
def noteKeydown (key : Key) (order : Nat) (inputVal : String)
    (g : NotesGlobals) : NotesGlobals :=
  match key with
  | .other => g
  | .escape => { g with editingNote := none }
  | .enter => noteSet order (stripHTMLtags inputVal) { g with editingNote := none }

/-! ## Derived observations used in the statements -/

/-- Action log of the table recovered from one decoded record. -/
def restoredActions (t : Table) : Option (List Action) :=
  (restoreOne t).map (fun rt => rt.1.game.actions)

/-- Played stacks of the recovered table. -/
def restoredStacks (t : Table) : Option (List Nat) :=
  (restoreOne t).map (fun rt => rt.1.game.playStacks)

/-- Discard pile of the recovered table. -/
def restoredDiscard (t : Table) : Option (List Nat) :=
  (restoreOne t).map (fun rt => rt.1.game.discardPile)

/-- Clue-token count of the recovered table. -/
def restoredClueTokens (t : Table) : Option Nat :=
  (restoreOne t).map (fun rt => rt.1.game.clueTokens)

/-- Present flags of the recovered table's lobby players. -/
def restoredPresentFlags (t : Table) : Option (List Bool) :=
  (restoreOne t).map (fun rt => rt.1.players.map Player.present)

/-- Encoded (JSON-content) form of the recovered action log. -/
def restoredActionsEnc (t : Table) : Option (List JMap) :=
  (restoreOne t).map (fun rt => rt.1.game.actions.map encodeActionVal)

/-- The record `serializeTables` writes for one table. -/
def writtenRecord (t : Table) : String × Table :=
  (tableFileName t.id, marshalTable t)

/-- Whether a recovery run ended in a fatal error. -/
def isFatal {α : Type} : Except String α → Bool
  | .error _ => true
  | .ok _ => false

/-- Whether an action-log entry is a typed (discriminated) record rather
than a generic decoded map. -/
def isTypedAction : Action → Bool
  | .typed _ => true
  | .generic _ => false

/-- What one typed action becomes after a serialize/restore round trip:
a draw action is re-typed back to itself, every other kind stays as its
generic decoded map. -/
def roundtripAction (a : TypedAction) : Action :=
  if a.kind = .draw then .typed a else .generic (encodeAction a)

/-- Lift of `roundtripAction` to an action-log entry. -/
def roundtripVal : Action → Action
  | .typed ta => roundtripAction ta
  | .generic m => .generic m

/-- An action-log entry in the state `restoreTables` leaves it in: a typed
draw action, or a generic map whose discriminator is not `"draw"`. -/
def wellRetyped : Action → Bool
  | .typed d => decide (d.kind = ActionKind.draw)
  | .generic m => decide (lookupKey m "type" ≠ some (JValue.str "draw"))

/-! ## Lemmas about recovery -/

theorem retypeOne_encode (a : TypedAction) :
    retypeOne (.generic (encodeAction a)) = some (roundtripAction a) := by
  obtain ⟨k, w, s, r, o⟩ := a
  cases k <;> rfl

theorem encodeActionVal_roundtripVal (a : Action) :
    encodeActionVal (roundtripVal a) = encodeActionVal a := by
  cases a with
  | generic m => rfl
  | typed ta =>
    by_cases h : ta.kind = .draw <;> simp [roundtripVal, roundtripAction, h, encodeActionVal]

theorem retypeActions_marshal (l : List Action)
    (h : ∀ a ∈ l, isTypedAction a = true) :
    retypeActions (l.map (fun a => Action.generic (encodeActionVal a))) =
      some (l.map roundtripVal) := by
  induction l with
  | nil => rfl
  | cons a rest ih =>
    have ha := h a (List.mem_cons_self a rest)
    cases a with
    | generic m => simp [isTypedAction] at ha
    | typed ta =>
      have hrest := ih (fun x hx => h x (List.mem_cons_of_mem _ hx))
      have h1 : retypeOne (Action.generic (encodeActionVal (Action.typed ta))) =
          some (roundtripAction ta) := retypeOne_encode ta
      simp [retypeActions, h1, hrest, roundtripVal]

/-- Structure of a successful `restoreOne` run. -/
theorem restoreOne_eq (t : Table) (rt : Table × Option Nat)
    (h : restoreOne t = some rt) :
    ∃ acts, retypeActions t.game.actions = some acts ∧
      rt.1.game.actions = acts ∧
      rt.1.game.playStacks = t.game.playStacks ∧
      rt.1.game.discardPile = t.game.discardPile ∧
      rt.1.game.clueTokens = t.game.clueTokens ∧
      rt.1.players = t.players.map (fun p => { p with present := false }) ∧
      rt.1.id = t.id ∧
      (t.options.timed = true →
        rt.2 = some t.game.activePlayerIndex ∧
        rt.1.game.players =
          addTimeAt (20 * second) t.game.players t.game.activePlayerIndex) ∧
      (t.options.timed = false →
        rt.2 = none ∧ rt.1.game.players = t.game.players) := by
  unfold restoreOne at h
  cases hr : retypeActions t.game.actions with
  | none => rw [hr] at h; exact absurd h (by simp)
  | some acts =>
    rw [hr] at h
    refine ⟨acts, rfl, ?_⟩
    by_cases ht : t.options.timed
    · simp only [ht, if_true] at h
      cases h
      simp [ht]
    · simp only [ht, if_false] at h
      cases h
      simp [ht]

theorem map_encode_roundtrip (l : List Action) :
    (l.map roundtripVal).map encodeActionVal = l.map encodeActionVal := by
  induction l with
  | nil => rfl
  | cons a rest ih => simp [encodeActionVal_roundtripVal, ih]

theorem presentFlags_cleared (l : List Player) :
    (l.map (fun p => { p with present := false })).map Player.present =
      List.replicate l.length false := by
  induction l with
  | nil => rfl
  | cons p rest ih => simp [ih, List.replicate_succ]

/-! ## Claim C1 -/

/-- Concrete running, non-replay table whose action log holds one typed
clue action. -/
def cexT1 : Table :=
  ⟨1, true, false, [⟨1, true⟩], ⟨false⟩,
    ⟨[⟨0⟩], [3], [7], 8, [.typed ⟨.clue, 0, 1, 2, 3⟩], 0, 0, 0, some ⟨false⟩⟩⟩

/-- Claim C1, as stated, is false: for this running, non-replay table the
serialize/restore round trip completes, but the recovered action log is
not identical to the pre-serialization one (the typed clue entry comes
back as a generic decoded map). -/
theorem C1_counterexample :
    qualifies cexT1 = true ∧
    (restoredActions (marshalTable cexT1)).isSome = true ∧
    restoredActions (marshalTable cexT1) ≠ some cexT1.game.actions := by
  decide

/-- Claim C1 (amended): serializing a running, non-replay table whose action
log holds typed actions and recovering the written record yields a Game
whose stacks, discard pile and clue-token count are identical to the
pre-serialization state and whose action log is content-identical (it
re-encodes to the same JSON objects): each draw entry comes back as its
original typed record, each entry of another kind comes back as its
generic decoded map; and every player's Present flag is false. -/
theorem C1_roundtrip (t : Table)
    (h1 : t.running = true) (h2 : t.replay = false)
    (h3 : ∀ a ∈ t.game.actions, isTypedAction a = true) :
    restoredStacks (marshalTable t) = some t.game.playStacks ∧
    restoredDiscard (marshalTable t) = some t.game.discardPile ∧
    restoredClueTokens (marshalTable t) = some t.game.clueTokens ∧
    restoredActions (marshalTable t) = some (t.game.actions.map roundtripVal) ∧
    restoredActionsEnc (marshalTable t) = some (t.game.actions.map encodeActionVal) ∧
    restoredPresentFlags (marshalTable t) =
      some (List.replicate t.players.length false) := by
  have hre := retypeActions_marshal t.game.actions h3
  by_cases ht : t.options.timed <;>
    simp [restoredStacks, restoredDiscard, restoredClueTokens, restoredActions,
      restoredActionsEnc, restoredPresentFlags, restoreOne, marshalTable, hre, ht,
      map_encode_roundtrip, presentFlags_cleared] <;>
    exact ⟨fun a _ => encodeActionVal_roundtripVal a, by
      induction t.players with
      | nil => rfl
      | cons p rest ih => simp [List.replicate_succ, ih]⟩

/-- Concrete table instantiating `C1_roundtrip`. -/
def w1T : Table :=
  ⟨4, true, false, [⟨1, true⟩, ⟨2, false⟩], ⟨true⟩,
    ⟨[⟨100⟩, ⟨200⟩], [1, 2], [9], 5,
      [.typed ⟨.draw, 0, 1, 2, 3⟩, .typed ⟨.play, 1, 0, 3, 3⟩], 6, 0, 1,
      some ⟨true⟩⟩⟩

theorem C1_roundtrip_witness :
    w1T.running = true ∧ w1T.replay = false ∧
    w1T.game.actions.all isTypedAction = true ∧
    (restoredStacks (marshalTable w1T) = some w1T.game.playStacks ∧
     restoredDiscard (marshalTable w1T) = some w1T.game.discardPile ∧
     restoredClueTokens (marshalTable w1T) = some w1T.game.clueTokens ∧
     restoredActions (marshalTable w1T) = some (w1T.game.actions.map roundtripVal) ∧
     restoredActionsEnc (marshalTable w1T) =
       some (w1T.game.actions.map encodeActionVal) ∧
     restoredPresentFlags (marshalTable w1T) =
       some (List.replicate w1T.players.length false)) :=
  ⟨rfl, rfl, by decide, C1_roundtrip w1T rfl rfl (by decide)⟩

/-! ## Claim C2 -/

theorem decodeDraw_kind (m : JMap) (d : TypedAction) (h : decodeDraw m = some d) :
    d.kind = ActionKind.draw := by
  unfold decodeDraw at h
  split at h
  · cases h; rfl
  · exact absurd h (by simp)

theorem retypeOne_wellRetyped (a a' : Action) (h : retypeOne a = some a') :
    wellRetyped a' = true := by
  cases a with
  | typed ta => simp [retypeOne] at h
  | generic m =>
    simp only [retypeOne] at h
    by_cases hd : lookupKey m "type" = some (JValue.str "draw")
    · rw [if_pos hd] at h
      cases hdd : decodeDraw m with
      | none => rw [hdd] at h; simp at h
      | some d =>
        rw [hdd] at h
        simp only [Option.map_some'] at h
        cases h
        simp [wellRetyped, decodeDraw_kind m d hdd]
    · rw [if_neg hd] at h
      cases h
      simp [wellRetyped, hd]

theorem retypeActions_mem (l l' : List Action) (h : retypeActions l = some l') :
    ∀ a' ∈ l', wellRetyped a' = true := by
  induction l generalizing l' with
  | nil =>
    unfold retypeActions at h
    cases h
    simp
  | cons a rest ih =>
    unfold retypeActions at h
    cases h1 : retypeOne a with
    | none => rw [h1] at h; simp at h
    | some a'' =>
      cases h2 : retypeActions rest with
      | none => rw [h1, h2] at h; simp at h
      | some rest'' =>
        rw [h1, h2] at h
        simp only [Option.some.injEq] at h
        subst h
        intro x hx
        rcases List.mem_cons.mp hx with hx | hx
        · subst hx; exact retypeOne_wellRetyped a x h1
        · exact ih rest'' h2 x hx

theorem retypeActions_get (l l' : List Action) (h : retypeActions l = some l') :
    l'.length = l.length ∧
    ∀ i a, l.get? i = some a →
      ∃ a', retypeOne a = some a' ∧ l'.get? i = some a' := by
  induction l generalizing l' with
  | nil =>
    unfold retypeActions at h
    cases h
    exact ⟨rfl, by intro i a hi; simp at hi⟩
  | cons a rest ih =>
    unfold retypeActions at h
    cases h1 : retypeOne a with
    | none => rw [h1] at h; simp at h
    | some a'' =>
      cases h2 : retypeActions rest with
      | none => rw [h1, h2] at h; simp at h
      | some rest'' =>
        rw [h1, h2] at h
        simp only [Option.some.injEq] at h
        subst h
        obtain ⟨hlen, hget⟩ := ih rest'' h2
        refine ⟨by simp [hlen], ?_⟩
        intro i x hi
        cases i with
        | zero =>
          simp only [List.get?] at hi
          cases hi
          exact ⟨a'', h1, rfl⟩
        | succ j =>
          simp only [List.get?] at hi ⊢
          exact hget j x hi

/-- Concrete stored record for `C2_counterexample`: one generic clue entry. -/
def cexT2 : Table :=
  ⟨2, true, false, [], ⟨false⟩,
    ⟨[], [], [], 0, [.generic [("type", .str "clue")]], 0, 0, 0, none⟩⟩

/-- Claim C2, as stated, is false: a stored record whose action log holds a
generic clue entry restores successfully, yet the recovered log still
holds a generic (untyped) entry. -/
theorem C2_counterexample :
    (restoredActions cexT2).isSome = true ∧
    ((restoredActions cexT2).getD []).all isTypedAction = false := by
  decide

/-- Claim C2 (amended): after `restoreTables` decodes a record, every
action-log entry whose `type` discriminator is `"draw"` has been re-typed
into the specific `ActionDraw` record; entries of every other kind are
left in their generic decoded form, so the recovered log consists
exactly of typed draw actions and generic non-draw maps, index by
index, with its length preserved. -/
theorem C2_retype (t : Table) (rt : Table × Option Nat)
    (h : restoreOne t = some rt) :
    rt.1.game.actions.all wellRetyped = true ∧
    rt.1.game.actions.length = t.game.actions.length ∧
    ∀ i m, t.game.actions.get? i = some (Action.generic m) →
      lookupKey m "type" = some (JValue.str "draw") →
      ∃ d, rt.1.game.actions.get? i = some (Action.typed d) ∧
        d.kind = ActionKind.draw := by
  obtain ⟨acts, hre, hacts, -, -, -, -, -, -, -⟩ := restoreOne_eq t rt h
  obtain ⟨hlen, hget⟩ := retypeActions_get t.game.actions acts hre
  refine ⟨?_, by rw [hacts, hlen], ?_⟩
  · rw [hacts]
    exact List.all_eq_true.mpr (retypeActions_mem t.game.actions acts hre)
  · intro i m hi hdm
    obtain ⟨a', h1, h2⟩ := hget i (Action.generic m) hi
    simp only [retypeOne] at h1
    rw [if_pos hdm] at h1
    cases hdd : decodeDraw m with
    | none => rw [hdd] at h1; simp at h1
    | some d =>
      rw [hdd] at h1
      simp only [Option.map_some'] at h1
      cases h1
      exact ⟨d, by rw [hacts]; exact h2, decodeDraw_kind m d hdd⟩

/-- Concrete stored record instantiating `C2_retype`: one generic draw
entry and one generic discard entry. -/
def w2T : Table :=
  ⟨3, true, false, [], ⟨false⟩,
    ⟨[], [], [], 1,
      [.generic [("type", .str "draw"), ("who", .num 0), ("suit", .num 1),
        ("rank", .num 4), ("order", .num 2)],
       .generic [("type", .str "discard"), ("who", .num 1)]],
      0, 0, 0, none⟩⟩

/-- The value `restoreOne` computes on `w2T`. -/
def w2R : Table × Option Nat :=
  (⟨3, true, false, [], ⟨false⟩,
    ⟨[], [], [], 1,
      [.typed ⟨.draw, 0, 1, 4, 2⟩,
       .generic [("type", .str "discard"), ("who", .num 1)]],
      0, 0, 0, some ⟨false⟩⟩⟩, none)

theorem C2_retype_witness :
    restoreOne w2T = some w2R ∧
    (w2R.1.game.actions.all wellRetyped = true ∧
     w2R.1.game.actions.length = w2T.game.actions.length ∧
     ∀ i m, w2T.game.actions.get? i = some (Action.generic m) →
       lookupKey m "type" = some (JValue.str "draw") →
       ∃ d, w2R.1.game.actions.get? i = some (Action.typed d) ∧
         d.kind = ActionKind.draw) :=
  ⟨by decide, C2_retype w2T w2R (by decide)⟩

/-! ## Claims C3 and C8: serialization pass and recovery scan -/

theorem isFatal_map (r : Except String (List RestoredEntry))
    (g : List RestoredEntry → List RestoredEntry) :
    isFatal (r.map g) = isFatal r := by
  cases r <;> rfl

theorem serializeTablesAux_ok (marshalOk writeOk : Nat → Bool) (ts : List Table) :
    ∀ acc : List (String × Table),
      (∀ u ∈ ts, qualifies u = true → marshalOk u.id = true ∧ writeOk u.id = true) →
      serializeTablesAux marshalOk writeOk ts acc =
        (true, acc.reverse ++ (ts.filter qualifies).map writtenRecord) := by
  induction ts with
  | nil => intro acc h; simp [serializeTablesAux]
  | cons t rest ih =>
    intro acc h
    have hrest := fun u hu => h u (List.mem_cons_of_mem _ hu)
    by_cases hq : qualifies t = true
    · obtain ⟨hm, hw⟩ := h t (List.mem_cons_self t rest) hq
      rw [serializeTablesAux, if_neg (by simp [hq]), if_neg (by simp [hm]),
        if_neg (by simp [hw]), ih _ hrest]
      simp [List.filter_cons, hq, writtenRecord]
    · rw [serializeTablesAux,
        if_pos (by simpa using Bool.of_not_eq_true hq), ih _ hrest]
      simp [List.filter_cons, hq]

theorem serializeTablesAux_abort (marshalOk writeOk : Nat → Bool) (t : Table)
    (post : List Table) (hq : qualifies t = true)
    (hfail : marshalOk t.id = false ∨ writeOk t.id = false) :
    ∀ (pre : List Table) (acc : List (String × Table)),
      (∀ u ∈ pre, qualifies u = true → marshalOk u.id = true ∧ writeOk u.id = true) →
      serializeTablesAux marshalOk writeOk (pre ++ t :: post) acc =
        (false, acc.reverse ++ (pre.filter qualifies).map writtenRecord) := by
  intro pre
  induction pre with
  | nil =>
    intro acc _
    rcases hfail with hf | hf
    · rw [List.nil_append, serializeTablesAux, if_neg (by simp [hq]), if_pos hf]
      simp
    · by_cases hm : marshalOk t.id = false
      · rw [List.nil_append, serializeTablesAux, if_neg (by simp [hq]), if_pos hm]
        simp
      · rw [List.nil_append, serializeTablesAux, if_neg (by simp [hq]),
          if_neg hm, if_pos hf]
        simp
  | cons u rest ih =>
    intro acc h
    have hrest := fun v hv => h v (List.mem_cons_of_mem _ hv)
    by_cases hqu : qualifies u = true
    · obtain ⟨hm, hw⟩ := h u (List.mem_cons_self u rest) hqu
      rw [List.cons_append, serializeTablesAux, if_neg (by simp [hqu]),
        if_neg (by simp [hm]), if_neg (by simp [hw]), ih _ hrest]
      simp [List.filter_cons, hqu, writtenRecord]
    · rw [List.cons_append, serializeTablesAux,
        if_pos (by simpa using Bool.of_not_eq_true hqu), ih _ hrest]
      simp [List.filter_cons, hqu]

theorem restoreFiles_fatal (fs : List DirFile) (f : DirFile) (hf : f ∈ fs)
    (hname : f.name ≠ ".gitignore")
    (hbad : f.content = FileContent.unreadable ∨
      f.content = FileContent.undecodable) :
    isFatal (restoreFiles fs) = true := by
  induction fs with
  | nil => simp at hf
  | cons g rest ih =>
    rcases List.mem_cons.mp hf with rfl | hmem
    · rcases hbad with hb | hb <;>
        simp [restoreFiles, hname, hb, isFatal]
    · have htail := ih hmem
      unfold restoreFiles
      by_cases hg : g.name = ".gitignore"
      · simp [hg, htail]
      · rw [if_neg hg]
        cases hc : g.content with
        | unreadable => rfl
        | undecodable => rfl
        | table t =>
          cases hr : restoreOne t with
          | none => simp [hr, isFatal]
          | some rt => simp [hr, isFatal_map, htail]

theorem restoreFiles_length (fs : List DirFile) :
    ∀ es, restoreFiles fs = Except.ok es →
      es.length = (fs.filter (fun f => f.name ≠ ".gitignore")).length := by
  induction fs with
  | nil => intro es h; unfold restoreFiles at h; cases h; rfl
  | cons g rest ih =>
    intro es h
    unfold restoreFiles at h
    by_cases hg : g.name = ".gitignore"
    · rw [if_pos hg] at h
      simp [List.filter_cons, hg, ih es h]
    · rw [if_neg hg] at h
      cases hc : g.content with
      | unreadable => rw [hc] at h; exact absurd h (by simp)
      | undecodable => rw [hc] at h; exact absurd h (by simp)
      | table t =>
        rw [hc] at h
        cases hr : restoreOne t with
        | none => simp [hr] at h
        | some rt =>
          simp only [hr] at h
          cases hrest : restoreFiles rest with
          | error e => rw [hrest] at h; exact absurd h (by simp [Except.map])
          | ok es' =>
            rw [hrest] at h
            simp only [Except.map, Except.ok.injEq] at h
            subst h
            simp [List.filter_cons, hg, ih es' hrest]

/-- Claim C3: a marshal or write failure on any single table makes
`serializeTables` return `false` at once, with the failing table and
everything after it left unwritten; during recovery, a failed directory
read is fatal, and an unreadable or undecodable record anywhere in the
scan is fatal to the whole run. -/
theorem C3_failfast :
    (∀ (marshalOk writeOk : Nat → Bool) (pre post : List Table) (t : Table),
      (∀ u ∈ pre, qualifies u = true → marshalOk u.id = true ∧ writeOk u.id = true) →
      qualifies t = true →
      (marshalOk t.id = false ∨ writeOk t.id = false) →
      serializeTables marshalOk writeOk (pre ++ t :: post) =
        (false, (pre.filter qualifies).map writtenRecord)) ∧
    isFatal (restoreTables none) = true ∧
    (∀ (fs : List DirFile) (f : DirFile), f ∈ fs → f.name ≠ ".gitignore" →
      (f.content = FileContent.unreadable ∨
        f.content = FileContent.undecodable) →
      isFatal (restoreTables (some fs)) = true) :=
  ⟨fun marshalOk writeOk pre post t h hq hf =>
    serializeTablesAux_abort marshalOk writeOk t post hq hf pre [] h,
   rfl,
   fun fs f hf hn hb => restoreFiles_fatal fs f hf hn hb⟩

/-- Failure oracle for the witness: marshalling table 2 fails. -/
def mOk3 : Nat → Bool := fun n => decide (n ≠ 2)

/-- Write oracle for the witness: all writes succeed. -/
def allOk : Nat → Bool := fun _ => true

/-- Three qualifying tables for the `C3_failfast` witness. -/
def t31 : Table := ⟨1, true, false, [], ⟨false⟩, ⟨[], [], [], 0, [], 0, 0, 0, none⟩⟩

def t32 : Table := ⟨2, true, false, [], ⟨false⟩, ⟨[], [], [], 0, [], 0, 0, 0, none⟩⟩

def t33 : Table := ⟨3, true, false, [], ⟨false⟩, ⟨[], [], [], 0, [], 0, 0, 0, none⟩⟩

theorem C3_failfast_witness :
    serializeTables mOk3 allOk ([t31] ++ t32 :: [t33]) =
      (false, ([t31].filter qualifies).map writtenRecord) ∧
    isFatal (restoreTables (some [⟨"5.json", .unreadable⟩])) = true :=
  ⟨C3_failfast.1 mOk3 allOk [t31] [t33] t32 (by decide) (by decide) (by decide),
   C3_failfast.2.2 [⟨"5.json", .unreadable⟩] ⟨"5.json", .unreadable⟩
     (by decide) (by decide) (by decide)⟩

/-- Claim C8: with no write failures, `serializeTables` writes exactly one
record per running, non-replay table, named `<ID>.json`, and nothing for
unstarted or replay tables; the recovery scan skips the reserved
`.gitignore` entry whatever its content, and recovers exactly one table
per remaining file. -/
theorem C8_layout :
    (∀ (marshalOk writeOk : Nat → Bool) (ts : List Table),
      (∀ u ∈ ts, qualifies u = true → marshalOk u.id = true ∧ writeOk u.id = true) →
      serializeTables marshalOk writeOk ts =
        (true, (ts.filter qualifies).map writtenRecord)) ∧
    (∀ (c : FileContent) (fs : List DirFile),
      restoreTables (some (⟨".gitignore", c⟩ :: fs)) = restoreTables (some fs)) ∧
    (∀ (fs : List DirFile) (es : List RestoredEntry),
      restoreTables (some fs) = Except.ok es →
      es.length = (fs.filter (fun f => f.name ≠ ".gitignore")).length) :=
  ⟨fun marshalOk writeOk ts h => serializeTablesAux_ok marshalOk writeOk ts [] h,
   fun c fs => by simp [restoreTables, restoreFiles],
   fun fs es h => restoreFiles_length fs es h⟩

/-- Unstarted table for the `C8_layout` witness. -/
def t8un : Table := ⟨5, false, false, [], ⟨false⟩, ⟨[], [], [], 0, [], 0, 0, 0, none⟩⟩

/-- Replay table for the `C8_layout` witness. -/
def t8rep : Table := ⟨6, true, true, [], ⟨false⟩, ⟨[], [], [], 0, [], 0, 0, 0, none⟩⟩

/-- Ongoing table for the `C8_layout` witness. -/
def t8run : Table := ⟨9, true, false, [], ⟨false⟩, ⟨[], [], [], 0, [], 0, 0, 0, none⟩⟩

theorem C8_layout_witness :
    serializeTables allOk allOk [t8un, t8run, t8rep] =
      (true, ([t8un, t8run, t8rep].filter qualifies).map writtenRecord) ∧
    restoreTables (some (⟨".gitignore", .unreadable⟩ :: [⟨"9.json", .table t8run⟩])) =
      restoreTables (some [⟨"9.json", .table t8run⟩]) ∧
    ([(⟨9, ⟨9, true, false, [], ⟨false⟩,
        ⟨[], [], [], 0, [], 0, 0, 0, some ⟨false⟩⟩⟩, none⟩ : RestoredEntry)]).length =
      ([(⟨"9.json", .table t8run⟩ : DirFile)].filter
        (fun f => f.name ≠ ".gitignore")).length :=
  ⟨C8_layout.1 allOk allOk [t8un, t8run, t8rep] (by decide),
   C8_layout.2.1 .unreadable [⟨"9.json", .table t8run⟩],
   C8_layout.2.2 [⟨"9.json", .table t8run⟩] _ (by rfl)⟩

/-! ## Claim C7: timer grace and re-arming -/

theorem addTimeAt_get (d : Int) (l : List GamePlayer) (i : Nat) (gp : GamePlayer)
    (h : l.get? i = some gp) :
    (addTimeAt d l i).get? i = some { gp with time := gp.time + d } := by
  induction l generalizing i with
  | nil => simp at h
  | cons p rest ih =>
    cases i with
    | zero =>
      simp only [List.get?] at h
      cases h
      rfl
    | succ j =>
      simp only [addTimeAt, List.get?] at h ⊢
      exact ih j h

/-- Claim C7: on a restored table marked timed, the active player's
remaining time is the pre-shutdown value plus the fixed 20-second grace
(hence strictly greater), and a turn-timer watcher is armed for that
player; an untimed table gets neither the grace nor a watcher. -/
theorem C7_timed_grace (t : Table) (rt : Table × Option Nat) (gp : GamePlayer)
    (h : restoreOne t = some rt) :
    (t.options.timed = true →
      t.game.players.get? t.game.activePlayerIndex = some gp →
      rt.2 = some t.game.activePlayerIndex ∧
      rt.1.game.players.get? t.game.activePlayerIndex =
        some { gp with time := gp.time + 20 * second } ∧
      gp.time < gp.time + 20 * second) ∧
    (t.options.timed = false →
      rt.2 = none ∧ rt.1.game.players = t.game.players) := by
  obtain ⟨acts, hre, hacts, hs, hd, hc, hp, hid, htimed, huntimed⟩ :=
    restoreOne_eq t rt h
  refine ⟨?_, huntimed⟩
  intro ht hgp
  obtain ⟨h1, h2⟩ := htimed ht
  refine ⟨h1, ?_, by simp only [second]; omega⟩
  rw [h2]
  exact addTimeAt_get _ _ _ _ hgp

/-- Timed table for the `C7_timed_grace` witness. -/
def w7T : Table :=
  ⟨11, true, false, [⟨1, true⟩], ⟨true⟩,
    ⟨[⟨5⟩, ⟨7⟩], [], [], 2, [], 3, 0, 1, some ⟨true⟩⟩⟩

/-- The value `restoreOne` computes on `w7T`. -/
def w7R : Table × Option Nat :=
  (⟨11, true, false, [⟨1, false⟩], ⟨true⟩,
    ⟨[⟨5⟩, ⟨7 + 20 * second⟩], [], [], 2, [], 3, 0, 1, some ⟨true⟩⟩⟩, some 1)

theorem C7_timed_grace_witness :
    restoreOne w7T = some w7R ∧
    w7T.options.timed = true ∧
    w7T.game.players.get? 1 = some ⟨7⟩ ∧
    (w7R.2 = some 1 ∧
     w7R.1.game.players.get? 1 = some ⟨7 + 20 * second⟩ ∧
     (7 : Int) < 7 + 20 * second) :=
  ⟨by decide, rfl, by decide,
   (C7_timed_grace w7T w7R ⟨7⟩ (by decide)).1 rfl (by decide)⟩

/-! ## Claims C4, C5, C6, C10: the return-to-lobby handler -/

theorem lookupGame_updateGame_self (games : List (Nat × JsGame)) (id : Nat)
    (g g' : JsGame) (h : lookupGame games id = some g) :
    lookupGame (updateGame games id g') id = some g' := by
  induction games with
  | nil => simp [lookupGame] at h
  | cons kv rest ih =>
    obtain ⟨k, v⟩ := kv
    by_cases hk : k = id
    · simp [lookupGame, updateGame, hk]
    · simp only [lookupGame] at h
      rw [if_neg hk] at h
      rw [updateGame, if_neg hk, lookupGame, if_neg hk]
      exact ih h

theorem mem_deleteSpectator (l : List Nat) (uid u : Nat) :
    u ∈ deleteSpectator l uid ↔ u ∈ l ∧ u ≠ uid := by
  simp [deleteSpectator, List.mem_filter]

theorem setPresentFalse_spec (l : List JsPlayer) (uid : Nat)
    (h : ∃ p ∈ l, p.userID = uid) :
    ∃ i p, l.get? i = some p ∧ p.userID = uid ∧
      (∀ j q, j < i → l.get? j = some q → q.userID ≠ uid) ∧
      setPresentFalse l uid = l.set i { p with present := false } := by
  induction l with
  | nil => simp at h
  | cons x rest ih =>
    by_cases hx : x.userID = uid
    · refine ⟨0, x, rfl, hx, fun j q hj _ => absurd hj (Nat.not_lt_zero j), ?_⟩
      simp [setPresentFalse, hx]
    · have h' : ∃ p ∈ rest, p.userID = uid := by
        obtain ⟨p, hp, hpu⟩ := h
        rcases List.mem_cons.mp hp with rfl | hp'
        · exact absurd hpu hx
        · exact ⟨p, hp', hpu⟩
      obtain ⟨i, p, h1, h2, h3, h4⟩ := ih h'
      refine ⟨i + 1, p, by simpa using h1, h2, ?_, ?_⟩
      · intro j q hj hq
        cases j with
        | zero =>
          simp only [List.get?] at hq
          cases hq
          exact hx
        | succ j' => exact h3 j' q (Nat.lt_of_succ_lt_succ hj) (by simpa using hq)
      · simp [setPresentFalse, hx, h4]

/-- Claim C4: a spectator session returning to the lobby on a game whose
spectator mapping holds it is deleted from that mapping, `num_spec`
drops by exactly one, both the membership-changed and the
spectator-count-changed notifications fire (after the global status
notification), and no player or turn state of the game changes. -/
theorem C4_spectator_leave (games : List (Nat × JsGame)) (socket : Socket)
    (g : JsGame)
    (hg : lookupGame games socket.atTableID = some g)
    (hrole : socket.spectating = true)
    (hmem : socket.userID ∈ g.spectators) :
    ∃ g', lookupGame (step1 games socket).games socket.atTableID = some g' ∧
      socket.userID ∉ g'.spectators ∧
      (∀ u, u ≠ socket.userID → (u ∈ g'.spectators ↔ u ∈ g.spectators)) ∧
      g'.num_spec = g.num_spec - 1 ∧
      g'.players = g.players ∧ g'.turn = g.turn ∧ g'.running = g.running ∧
      g'.clueTokens = g.clueTokens ∧ g'.playStacks = g.playStacks ∧
      g'.hands = g.hands ∧
      (step1 games socket).notifs =
        [Notif.allUserChange, Notif.gameMemberChange, Notif.gameNumSpec] := by
  have hstep : step1 games socket =
      ⟨updateGame games socket.atTableID
          { g with
            spectators := deleteSpectator g.spectators socket.userID,
            num_spec := g.num_spec - 1 },
        { socket with status := "Lobby" },
        [.allUserChange, .gameMemberChange, .gameNumSpec]⟩ := by
    unfold step1
    rw [hg]
    simp [hrole, hmem]
  rw [hstep]
  refine ⟨_, lookupGame_updateGame_self games socket.atTableID g _ hg,
    ?_, ?_, rfl, rfl, rfl, rfl, rfl, rfl, rfl, rfl⟩
  · simp [mem_deleteSpectator]
  · intro u hu
    simp [mem_deleteSpectator, hu]

/-- Concrete state for the `C4_spectator_leave` witness: spectator 42 on
table 7. -/
def g4 : JsGame := ⟨[42, 50], 2, [⟨1, true⟩], true, 3, 4, [1], [[2]]⟩

def sock4 : Socket := ⟨42, "alice", "Playing", 7, true⟩

theorem C4_spectator_leave_witness :
    lookupGame [(7, g4)] sock4.atTableID = some g4 ∧
    sock4.spectating = true ∧
    sock4.userID ∈ g4.spectators ∧
    (∃ g', lookupGame (step1 [(7, g4)] sock4).games sock4.atTableID = some g' ∧
      sock4.userID ∉ g'.spectators ∧
      (∀ u, u ≠ sock4.userID → (u ∈ g'.spectators ↔ u ∈ g4.spectators)) ∧
      g'.num_spec = g4.num_spec - 1 ∧
      g'.players = g4.players ∧ g'.turn = g4.turn ∧ g'.running = g4.running ∧
      g'.clueTokens = g4.clueTokens ∧ g'.playStacks = g4.playStacks ∧
      g'.hands = g4.hands ∧
      (step1 [(7, g4)] sock4).notifs =
        [Notif.allUserChange, Notif.gameMemberChange, Notif.gameNumSpec]) :=
  ⟨by decide, rfl, by decide,
   C4_spectator_leave [(7, g4)] sock4 g4 (by decide) rfl (by decide)⟩

/-- Concrete state showing claim C5 false as stated: a player returning to
the lobby of a running game triggers three notifications (global status
change, player-connection change, and a fresh table message), not
exactly one. -/
def g5 : JsGame := ⟨[], 0, [⟨42, true⟩, ⟨50, true⟩], true, 1, 2, [0], [[1]]⟩

def sock5 : Socket := ⟨42, "bob", "Playing", 7, false⟩

theorem C5_counterexample :
    sock5.spectating = false ∧
    lookupGame [(7, g5)] sock5.atTableID = some g5 ∧
    g5.running = true ∧
    (step1 [(7, g5)] sock5).notifs.length ≠ 1 := by
  decide

/-- Claim C5 (amended): when a player session returns to the lobby, the only
game-state change is that the first matching player record has its
`present` flag cleared — spectators, turn, clue tokens, stacks and hands
are unchanged — and the handler emits exactly the three notifications
global-user-status-change, then player-connection-changed (running game)
or membership-changed (unstarted game), then a fresh table message to
the departing player. -/
theorem C5_player_leave (games : List (Nat × JsGame)) (socket : Socket)
    (g : JsGame)
    (hg : lookupGame games socket.atTableID = some g)
    (hrole : socket.spectating = false)
    (hmem : ∃ p ∈ g.players, p.userID = socket.userID) :
    ∃ g' i p,
      lookupGame (step1 games socket).games socket.atTableID = some g' ∧
      g.players.get? i = some p ∧ p.userID = socket.userID ∧
      (∀ j q, j < i → g.players.get? j = some q → q.userID ≠ socket.userID) ∧
      g'.players = g.players.set i { p with present := false } ∧
      g'.spectators = g.spectators ∧ g'.num_spec = g.num_spec ∧
      g'.turn = g.turn ∧ g'.clueTokens = g.clueTokens ∧
      g'.playStacks = g.playStacks ∧ g'.hands = g.hands ∧
      g'.running = g.running ∧
      (step1 games socket).notifs =
        [Notif.allUserChange,
         if g.running then Notif.gameConnected else Notif.gameMemberChange,
         Notif.playerTable] := by
  obtain ⟨i, p, h1, h2, h3, h4⟩ := setPresentFalse_spec g.players socket.userID hmem
  have hstep : step1 games socket =
      ⟨updateGame games socket.atTableID
          { g with players := setPresentFalse g.players socket.userID },
        { socket with status := "Lobby" },
        [.allUserChange,
         if g.running then Notif.gameConnected else Notif.gameMemberChange,
         .playerTable]⟩ := by
    unfold step1
    rw [hg]
    simp [hrole]
  rw [hstep]
  exact ⟨_, i, p, lookupGame_updateGame_self games socket.atTableID g _ hg,
    h1, h2, h3, h4, rfl, rfl, rfl, rfl, rfl, rfl, rfl, rfl⟩

theorem C5_player_leave_witness :
    lookupGame [(7, g5)] sock5.atTableID = some g5 ∧
    sock5.spectating = false ∧
    (∃ p ∈ g5.players, p.userID = sock5.userID) ∧
    (∃ g' i p,
      lookupGame (step1 [(7, g5)] sock5).games sock5.atTableID = some g' ∧
      g5.players.get? i = some p ∧ p.userID = sock5.userID ∧
      (∀ j q, j < i → g5.players.get? j = some q → q.userID ≠ sock5.userID) ∧
      g'.players = g5.players.set i { p with present := false } ∧
      g'.spectators = g5.spectators ∧ g'.num_spec = g5.num_spec ∧
      g'.turn = g5.turn ∧ g'.clueTokens = g5.clueTokens ∧
      g'.playStacks = g5.playStacks ∧ g'.hands = g5.hands ∧
      g'.running = g5.running ∧
      (step1 [(7, g5)] sock5).notifs =
        [Notif.allUserChange,
         if g5.running then Notif.gameConnected else Notif.gameMemberChange,
         Notif.playerTable]) :=
  ⟨by decide, rfl, by decide,
   C5_player_leave [(7, g5)] sock5 g5 (by decide) rfl (by decide)⟩

/-- Claim C6: a session whose role claims spectator but whose user is absent
from the spectator mapping has the action logged and aborted: the games
map is untouched (so the table keeps running with unchanged state), the
socket still moved to the lobby, and neither the membership-changed nor
the spectator-count-changed notification is emitted. -/
theorem C6_inconsistent_spectator (games : List (Nat × JsGame))
    (socket : Socket) (g : JsGame)
    (hg : lookupGame games socket.atTableID = some g)
    (hrole : socket.spectating = true)
    (hmem : socket.userID ∉ g.spectators) :
    (step1 games socket).games = games ∧
    (step1 games socket).notifs = [Notif.allUserChange] ∧
    (step1 games socket).socket = { socket with status := "Lobby" } ∧
    lookupGame (step1 games socket).games socket.atTableID = some g := by
  have hstep : step1 games socket =
      ⟨games, { socket with status := "Lobby" }, [.allUserChange]⟩ := by
    unfold step1
    rw [hg]
    simp [hrole, hmem]
  rw [hstep]
  exact ⟨rfl, rfl, rfl, hg⟩

/-- Concrete state for the `C6_inconsistent_spectator` witness: session 99
claims spectator status but is not in the mapping. -/
def sock6 : Socket := ⟨99, "carol", "Playing", 7, true⟩

theorem C6_inconsistent_spectator_witness :
    lookupGame [(7, g4)] sock6.atTableID = some g4 ∧
    sock6.spectating = true ∧
    sock6.userID ∉ g4.spectators ∧
    ((step1 [(7, g4)] sock6).games = [(7, g4)] ∧
     (step1 [(7, g4)] sock6).notifs = [Notif.allUserChange] ∧
     (step1 [(7, g4)] sock6).socket = { sock6 with status := "Lobby" } ∧
     lookupGame (step1 [(7, g4)] sock6).games sock6.atTableID = some g4) :=
  ⟨by decide, rfl, by decide,
   C6_inconsistent_spectator [(7, g4)] sock6 g4 (by decide) rfl (by decide)⟩

/-- Claim C10: the handler sets the session status to `"Lobby"` and emits
the global user-status notification before validating the table, so both
side effects occur even when the table does not exist, after which the
handler returns with the games map untouched. -/
theorem C10_premature_effects (games : List (Nat × JsGame)) (socket : Socket)
    (h : lookupGame games socket.atTableID = none) :
    (step1 games socket).socket.status = "Lobby" ∧
    (step1 games socket).notifs = [Notif.allUserChange] ∧
    (step1 games socket).games = games := by
  unfold step1
  rw [h]
  exact ⟨rfl, rfl, rfl⟩

theorem C10_premature_effects_witness :
    lookupGame [(7, g4)] sock4.atTableID ≠ none ∧
    lookupGame [] sock4.atTableID = none ∧
    ((step1 [] sock4).socket.status = "Lobby" ∧
     (step1 [] sock4).notifs = [Notif.allUserChange] ∧
     (step1 [] sock4).games = []) :=
  ⟨by decide, rfl, C10_premature_effects [] sock4 rfl⟩

/-! ## Claim C9: note commit -/

theorem get?_set_self (l : List String) (i : Nat) (x : String)
    (h : i < l.length) : (l.set i x).get? i = some x := by
  induction l generalizing i with
  | nil => simp at h
  | cons a rest ih =>
    cases i with
    | zero => rfl
    | succ j => exact ih j (Nat.lt_of_succ_lt_succ h)

/-- Claim C9: committing a note edit with Enter stores, and sends in any
`note` command it emits, exactly the input with HTML markup stripped;
committing with Escape leaves the stored note and the sent messages
unchanged. -/
theorem C9_note_commit (g : NotesGlobals) (order : Nat) (v : String)
    (hrep : g.replay = false) (hord : order < g.ourNotes.length) :
    getNote (noteKeydown Key.enter order v g) order = stripHTMLtags v ∧
    (∀ m ∈ (noteKeydown Key.enter order v g).sent,
      m ∈ g.sent ∨ m = (order, stripHTMLtags v)) ∧
    (noteKeydown Key.escape order v g).ourNotes = g.ourNotes ∧
    (noteKeydown Key.escape order v g).sent = g.sent := by
  refine ⟨?_, ?_, rfl, rfl⟩
  · show getNote (noteSet order (stripHTMLtags v) { g with editingNote := none })
        order = stripHTMLtags v
    unfold noteSet getNote
    simp [setAt, List.getElem?_set_self, hord]
  · intro m hm
    simp only [noteKeydown, noteSet] at hm
    split at hm
    · rcases List.mem_append.mp hm with hm' | hm'
      · exact Or.inl hm'
      · exact Or.inr (List.mem_singleton.mp hm')
    · exact Or.inl hm

/-- Concrete state for the `C9_note_commit` witness. -/
def g9 : NotesGlobals :=
  ⟨["old note"], [[⟨"dana", "old note"⟩]], false, false, "dana", "old note",
    [], some 0⟩

theorem C9_note_commit_witness :
    g9.replay = false ∧ 0 < g9.ourNotes.length ∧
    (getNote (noteKeydown Key.enter 0 "hi <b>there</b>" g9) 0 =
      stripHTMLtags "hi <b>there</b>" ∧
     (∀ m ∈ (noteKeydown Key.enter 0 "hi <b>there</b>" g9).sent,
       m ∈ g9.sent ∨ m = (0, stripHTMLtags "hi <b>there</b>")) ∧
     (noteKeydown Key.escape 0 "hi <b>there</b>" g9).ourNotes = g9.ourNotes ∧
     (noteKeydown Key.escape 0 "hi <b>there</b>" g9).sent = g9.sent) :=
  ⟨rfl, by decide, C9_note_commit g9 0 "hi <b>there</b>" rfl (by decide)⟩

end Hanabi
